import Mathlib

/-!
Verification of the admission-controller webhook in
`cmd/webhook-server/main.go`.

Modelling conventions:
- Go strings are embedded as `List Char` (`GoStr`), so that the byte-wise
  semantics of `strings.HasPrefix` / `strings.TrimPrefix` can be stated and
  proved structurally.
- A Go `map[string]string` is embedded as an association list with unique
  semantics given by first-match lookup (`goLookup`), map assignment
  (`mapSet`, which removes any previous binding of the key) and deletion
  (`mapDelete`).  The source only ever builds a fresh map from the pod's
  annotation list and then deletes from it; none of the verified claims
  depend on Go's (unspecified) map iteration order.
- The Kubernetes deserializer `universalDeserializer` is defined outside the
  available source tree, so `applySecurityDefaults` is parameterised by an
  abstract decoder `List Nat → Except GoStr Pod` (raw bytes to pod or error).
- The policy evaluation on a decoded pod (`evalPodPolicy`) threads the pod
  value through every step and returns it, making the frame property
  "the reviewed pod is not mutated" an explicit theorem.
-/

namespace Webhook

/-- Go strings, embedded as lists of characters. -/
abbrev GoStr := List Char

/-- Embedding of `metav1.GroupVersionResource` (only the three string fields
are relevant to the source). -/
structure GroupVersionResource where
  group : String
  version : String
  resource : String
deriving DecidableEq, Repr

/-- The `podResource` constant of `main.go`:
`metav1.GroupVersionResource{Version: "v1", Resource: "pods"}` (Go zero value
for the missing `Group` field is the empty string). -/
def podResource : GroupVersionResource :=
  { group := "", version := "v1", resource := "pods" }

/-- One container of a pod spec; only the `Name` field is read by the source. -/
structure Container where
  name : GoStr
deriving DecidableEq, Repr

/-- Embedding of the decoded `corev1.Pod`: the metadata annotation map
(an association list of key/value pairs) and the container list of the spec. -/
structure Pod where
  annots : List (GoStr × GoStr)
  containers : List Container
deriving DecidableEq, Repr

/-- Modelled from the spec: `patchOperation` is declared in a repository file
that is not part of the available source tree; per the spec it is one mutation
instruction with an operation kind, a slash-delimited path and a value. -/
structure PatchOperation where
  op : GoStr
  path : GoStr
  value : GoStr
deriving DecidableEq, Repr

/-- Embedding of `v1beta1.AdmissionRequest`: the fields the source reads
(`Resource`, `Object.Raw`) plus representative fields it ignores
(`UID`, `UserInfo`, `Operation`), used to state noninterference. -/
structure AdmissionRequest where
  uid : String
  userInfo : String
  operation : String
  resource : GroupVersionResource
  objectRaw : List Nat
deriving DecidableEq, Repr

/-- Go map lookup on an association list (first binding wins). -/
def goLookup : List (GoStr × GoStr) → GoStr → Option GoStr
  | [], _ => none
  | kv :: rest, k => if kv.1 = k then some kv.2 else goLookup rest k

/-- Go map indexing `m[k]`, which yields the zero value (empty string) for a
missing key. -/
def goIndex (m : List (GoStr × GoStr)) (k : GoStr) : GoStr :=
  (goLookup m k).getD []

/-- Go map assignment `m[k] = v`: any previous binding of `k` is replaced. -/
def mapSet (m : List (GoStr × GoStr)) (k v : GoStr) : List (GoStr × GoStr) :=
  m.filter (fun kv => kv.1 ≠ k) ++ [(k, v)]

/-- Go `delete(m, k)`. -/
def mapDelete (m : List (GoStr × GoStr)) (k : GoStr) : List (GoStr × GoStr) :=
  m.filter (fun kv => kv.1 ≠ k)

/-- Go `strings.TrimPrefix(s, p)`: drops `p` from the front of `s` when `p`
is a prefix of `s`, otherwise returns `s` unchanged. -/
def trimPfx (p s : GoStr) : GoStr :=
  if p.isPrefixOf s then s.drop p.length else s

/-- The annotation key `aic.4paradigm.com/app` checked at line 67 of
`main.go`. -/
def appKey : GoStr := "aic.4paradigm.com/app".data

/-- The sentinel value `"true"` of the activation check. -/
def trueLit : GoStr := "true".data

/-- The key namespace `aic.4paradigm.com/computeunit/` matched at line 74 of
`main.go`. -/
def cuKeyStart : GoStr := "aic.4paradigm.com/computeunit/".data

/-- The error message `unexpected computeunit` of line 95 of `main.go`. -/
def cuErrMsg : GoStr := "unexpected computeunit".data

/-- The error-message prefix of line 62 of `main.go`
(`could not deserialize pod object: %v`). -/
def deserializeMsg : GoStr := "could not deserialize pod object: ".data

/-- Lines 72-78 of `main.go`: build `containerComputeunitMap` by ranging over
the pod's annotation entries, keeping those whose key starts with
`aic.4paradigm.com/computeunit/`, keyed by the trimmed container name. -/
def buildCuMap : List (GoStr × GoStr) → List (GoStr × GoStr) → List (GoStr × GoStr)
  | [], m => m
  | kv :: rest, m =>
      buildCuMap rest
        (if cuKeyStart.isPrefixOf kv.1 then mapSet m (trimPfx cuKeyStart kv.1) kv.2 else m)

/-- The mutable state of the loop at lines 84-92 of `main.go`:
`computeunitList`, `containerComputeunitMap`, and the pod value itself
(threaded explicitly so that non-mutation of the pod is provable). -/
structure LoopState where
  cuList : List GoStr
  cuMap : List (GoStr × GoStr)
  pod : Pod
deriving DecidableEq, Repr

/-- Lines 84-92 of `main.go`: for each container, if its name is bound in
`containerComputeunitMap`, append the bound computeunit to `computeunitList`
and delete the binding; otherwise leave the state unchanged. -/
def cuLoop : List Container → LoopState → LoopState
  | [], st => st
  | c :: cs, st =>
      cuLoop cs
        (match goLookup st.cuMap c.name with
         | some cu =>
             { st with cuList := st.cuList ++ [cu], cuMap := mapDelete st.cuMap c.name }
         | none => st)

/-- Lines 66-123 of `main.go`, the policy evaluation on a decoded pod:
activation check, computeunit-map construction, the container loop, and the
final unconsumed-entries check.  The pod value is threaded through and
returned, so the result records both the decision and the (un)changed pod.
The patch list is the `patches` variable of the source, which is never
appended to (the patch emission is commented out). -/
def evalPodPolicy (pod : Pod) : Except GoStr (List PatchOperation) × Pod :=
  if goIndex pod.annots appKey ≠ trueLit then (Except.ok [], pod)
  else
    let patches : List PatchOperation := []
    let st := cuLoop pod.containers ⟨[], buildCuMap pod.annots [], pod⟩
    if st.cuMap.length ≠ 0 then (Except.error cuErrMsg, st.pod)
    else (Except.ok patches, st.pod)

/-- Lines 50-124 of `main.go`: `applySecurityDefaults`, parameterised by the
abstract deserializer (the source's `universalDeserializer.Decode` specialised
to `corev1.Pod`).  Returning `Except.ok l` embeds the Go result `(l, nil)`
(with `nil` slices and empty slices identified); `Except.error e` embeds
`(nil, err)`. -/
def applySecurityDefaults (decode : List Nat → Except GoStr Pod)
    (req : AdmissionRequest) : Except GoStr (List PatchOperation) :=
  if req.resource ≠ podResource then Except.ok []
  else
    match decode req.objectRaw with
    | Except.error e => Except.error (deserializeMsg ++ e)
    | Except.ok pod => (evalPodPolicy pod).1

/-- The TLS directory constant of `main.go`. -/
def tlsDir : String := "/run/secrets/tls"

/-- The TLS certificate filename constant of `main.go`. -/
def tlsCertFile : String := "tls.crt"

/-- The TLS key filename constant of `main.go`. -/
def tlsKeyFile : String := "tls.key"

/-- Embedding of `filepath.Join` for one separator-free relative component
joined onto an absolute directory (on these inputs `filepath.Join` performs no
cleaning and is plain concatenation with one slash). -/
def filepathJoin (dir file : String) : String := dir ++ "/" ++ file

/-- How the server of `main` serves: `net/http`'s `ListenAndServeTLS` with a
certificate path and a key path, or plaintext `ListenAndServe` (which the
source never uses). -/
inductive ServeMode where
  | tls (certPath keyPath : String)
  | plaintext
deriving DecidableEq, Repr

/-- The server value assembled by `main` (lines 126-139 of `main.go`): the
listen address, the mux bindings of URL path to decision function, and the
serve mode. -/
structure Server where
  addr : String
  routes : List (String × ((List Nat → Except GoStr Pod) → AdmissionRequest →
      Except GoStr (List PatchOperation)))
  mode : ServeMode

/-- Lines 126-139 of `main.go`: the handler for path `/mutate` is
`admitFuncHandler(applySecurityDefaults)`, the address is `:8443`, and the
server is started with `ListenAndServeTLS(certPath, keyPath)`. -/
def mainServer : Server :=
  let certPath := filepathJoin tlsDir tlsCertFile
  let keyPath := filepathJoin tlsDir tlsKeyFile
  { addr := ":8443"
    routes := [("/mutate", applySecurityDefaults)]
    mode := ServeMode.tls certPath keyPath }

/-- The outcome of `main` after `server.ListenAndServeTLS` returns:
`log.Fatal` prints the diagnostic and exits the process; there is no branch
that continues in a degraded or insecure mode. -/
inductive MainOutcome where
  | fatalExit (diag : Option GoStr)
deriving DecidableEq, Repr

/-- Line 138 of `main.go`, `log.Fatal(server.ListenAndServeTLS(...))`:
whatever the listener-start result, the process exits, with the error as
diagnostic when the listener could not be started. -/
def mainOnListenResult (r : Except GoStr Unit) : MainOutcome :=
  MainOutcome.fatalExit (match r with
    | Except.error e => some e
    | Except.ok _ => none)

end Webhook

namespace Webhook

/-! ### Helper lemmas about the map and prefix operations -/

theorem not_mem_of_goLookup_eq_none :
    ∀ {m : List (GoStr × GoStr)} {k : GoStr}, goLookup m k = none →
      ∀ w, (k, w) ∉ m := by
  intro m
  induction m with
  | nil => intro k _ w hw; exact List.not_mem_nil _ hw
  | cons kv rest ih =>
    intro k hnone w hw
    by_cases hk : kv.1 = k
    · simp [goLookup, hk] at hnone
    · rcases List.mem_cons.mp hw with heq | hmem
      · exact hk (by rw [← heq])
      · exact ih (by simpa [goLookup, hk] using hnone) w hmem

theorem mem_mapDelete {m : List (GoStr × GoStr)} {k k' w : GoStr} :
    (k', w) ∈ mapDelete m k ↔ (k', w) ∈ m ∧ k' ≠ k := by
  simp [mapDelete, List.mem_filter]

theorem mem_mapSet {m : List (GoStr × GoStr)} {k v k' w : GoStr} :
    (k', w) ∈ mapSet m k v ↔ ((k', w) ∈ m ∧ k' ≠ k) ∨ (k' = k ∧ w = v) := by
  simp [mapSet, List.mem_append, List.mem_filter, Prod.ext_iff]

theorem isPrefixOf_append_self (p t : GoStr) : p.isPrefixOf (p ++ t) = true := by
  induction p with
  | nil => cases t <;> rfl
  | cons c p ih =>
    show (c == c && p.isPrefixOf (p ++ t)) = true
    simp [ih]

theorem trimPfx_append (p t : GoStr) : trimPfx p (p ++ t) = t := by
  simp only [trimPfx, isPrefixOf_append_self, if_true]
  induction p with
  | nil => rfl
  | cons c p _ => simp

/-! ### Helper lemmas about the computeunit map construction -/

theorem buildCuMap_mem_mono :
    ∀ (anns : List (GoStr × GoStr)) (m : List (GoStr × GoStr)) (k : GoStr),
      (∃ w, (k, w) ∈ m) → ∃ w, (k, w) ∈ buildCuMap anns m
  | [], _, _, h => h
  | kv :: rest, m, k, h => by
    apply buildCuMap_mem_mono rest _ k
    by_cases hp : cuKeyStart.isPrefixOf kv.1 = true
    · simp only [hp, if_true]
      obtain ⟨w, hw⟩ := h
      by_cases hk : k = trimPfx cuKeyStart kv.1
      · exact ⟨kv.2, mem_mapSet.mpr (Or.inr ⟨hk, rfl⟩)⟩
      · exact ⟨w, mem_mapSet.mpr (Or.inl ⟨hw, hk⟩)⟩
    · rw [if_neg hp]
      exact h

theorem buildCuMap_key_of_mem :
    ∀ (anns : List (GoStr × GoStr)) (m : List (GoStr × GoStr)) {name v : GoStr},
      (cuKeyStart ++ name, v) ∈ anns → ∃ w, (name, w) ∈ buildCuMap anns m
  | [], _, _, _, h => absurd h (List.not_mem_nil _)
  | kv :: rest, m, name, v, h => by
    rcases List.mem_cons.mp h with heq | hrest
    · have h1 : kv.1 = cuKeyStart ++ name := by rw [← heq]
      have hp : cuKeyStart.isPrefixOf kv.1 = true := by
        rw [h1]; exact isPrefixOf_append_self _ _
      have ht : trimPfx cuKeyStart kv.1 = name := by
        rw [h1]; exact trimPfx_append _ _
      apply buildCuMap_mem_mono rest _ name
      refine ⟨kv.2, ?_⟩
      simp only [hp, if_true]
      exact mem_mapSet.mpr (Or.inr ⟨ht.symm, rfl⟩)
    · exact buildCuMap_key_of_mem rest _ hrest

theorem mem_buildCuMap :
    ∀ (anns : List (GoStr × GoStr)) (m : List (GoStr × GoStr)) {k w : GoStr},
      (k, w) ∈ buildCuMap anns m →
      (∃ w', (k, w') ∈ m) ∨
        ∃ key v, (key, v) ∈ anns ∧ cuKeyStart.isPrefixOf key = true ∧
          trimPfx cuKeyStart key = k
  | [], _, _, _, h => Or.inl ⟨_, h⟩
  | kv :: rest, m, k, w, h => by
    by_cases hp : cuKeyStart.isPrefixOf kv.1 = true
    · rw [show buildCuMap (kv :: rest) m =
          buildCuMap rest (mapSet m (trimPfx cuKeyStart kv.1) kv.2) by
            simp [buildCuMap, hp]] at h
      rcases mem_buildCuMap rest _ h with ⟨w', hw'⟩ | ⟨key, v, hkv, hp', ht⟩
      · rcases mem_mapSet.mp hw' with ⟨hm, _⟩ | ⟨hk, _⟩
        · exact Or.inl ⟨w', hm⟩
        · exact Or.inr ⟨kv.1, kv.2, List.mem_cons_self _ _, hp, hk.symm⟩
      · exact Or.inr ⟨key, v, List.mem_cons_of_mem _ hkv, hp', ht⟩
    · rw [show buildCuMap (kv :: rest) m = buildCuMap rest m by simp [buildCuMap, hp]] at h
      rcases mem_buildCuMap rest _ h with hm | ⟨key, v, hkv, hp', ht⟩
      · exact Or.inl hm
      · exact Or.inr ⟨key, v, List.mem_cons_of_mem _ hkv, hp', ht⟩

/-! ### Helper lemmas about the container loop -/

theorem cuLoop_pod : ∀ (cs : List Container) (st : LoopState),
    (cuLoop cs st).pod = st.pod
  | [], _ => rfl
  | c :: cs, st => by
    show (cuLoop cs _).pod = st.pod
    cases hgl : goLookup st.cuMap c.name with
    | some cu => simp only [hgl]; exact cuLoop_pod cs _
    | none => simp only [hgl]; exact cuLoop_pod cs st

theorem cuLoop_mem : ∀ (cs : List Container) (st : LoopState) {k w : GoStr},
    (k, w) ∈ st.cuMap → (∀ c ∈ cs, c.name ≠ k) →
    (k, w) ∈ (cuLoop cs st).cuMap
  | [], _, _, _, hm, _ => hm
  | c :: cs, st, k, w, hm, hno => by
    have hck : c.name ≠ k := hno c (List.mem_cons_self c cs)
    have hno' : ∀ c' ∈ cs, c'.name ≠ k := fun c' h => hno c' (List.mem_cons_of_mem c h)
    show (k, w) ∈ (cuLoop cs _).cuMap
    cases hgl : goLookup st.cuMap c.name with
    | some cu =>
      simp only [hgl]
      exact cuLoop_mem cs _ (mem_mapDelete.mpr ⟨hm, Ne.symm hck⟩) hno'
    | none =>
      simp only [hgl]
      exact cuLoop_mem cs st hm hno'

theorem cuLoop_empty : ∀ (cs : List Container) (st : LoopState),
    (∀ k w, (k, w) ∈ st.cuMap → ∃ c ∈ cs, c.name = k) →
    (cuLoop cs st).cuMap = []
  | [], st, h => by
    show st.cuMap = []
    rcases hm : st.cuMap with _ | ⟨⟨k, w⟩, rest⟩
    · rfl
    · exfalso
      obtain ⟨c, hc, _⟩ := h k w (by rw [hm]; exact List.mem_cons_self _ _)
      exact List.not_mem_nil c hc
  | c :: cs, st, h => by
    show (cuLoop cs _).cuMap = []
    cases hgl : goLookup st.cuMap c.name with
    | some cu =>
      simp only [hgl]
      apply cuLoop_empty cs
      intro k w hkw
      obtain ⟨hmem, hne⟩ := mem_mapDelete.mp hkw
      obtain ⟨c', hc', hname⟩ := h k w hmem
      rcases List.mem_cons.mp hc' with rfl | hc'cs
      · exact absurd hname.symm hne
      · exact ⟨c', hc'cs, hname⟩
    | none =>
      simp only [hgl]
      apply cuLoop_empty cs
      intro k w hkw
      obtain ⟨c', hc', hname⟩ := h k w hkw
      rcases List.mem_cons.mp hc' with rfl | hc'cs
      · exact absurd (hname ▸ hkw) (not_mem_of_goLookup_eq_none hgl w)
      · exact ⟨c', hc'cs, hname⟩

theorem evalPodPolicy_fst_cases (pod : Pod) :
    (evalPodPolicy pod).1 = Except.ok [] ∨ (evalPodPolicy pod).1 = Except.error cuErrMsg := by
  by_cases hact : goIndex pod.annots appKey ≠ trueLit
  · exact Or.inl (by simp [evalPodPolicy, hact])
  · by_cases hlen : (cuLoop pod.containers ⟨[], buildCuMap pod.annots [], pod⟩).cuMap.length ≠ 0
    · exact Or.inr (by simp [evalPodPolicy, hact, hlen])
    · exact Or.inl (by simp [evalPodPolicy, hact, hlen])

end Webhook

namespace Webhook

/-! ### Concrete fixtures used by the witness theorems -/

/-- A decoder that always succeeds with a fixed pod. -/
def constDecode (pod : Pod) : List Nat → Except GoStr Pod := fun _ => Except.ok pod

/-- A decoder that always fails with a fixed error. -/
def errDecode (e : GoStr) : List Nat → Except GoStr Pod := fun _ => Except.error e

/-- An activated pod with a computeunit entry `ghost` and no container of
that name. -/
def ghostPod : Pod :=
  { annots := [(appKey, trueLit), (cuKeyStart ++ "ghost".data, "x".data)]
    containers := [{ name := "main".data }] }

/-- An activated pod with one container `a` and a matching `computeunit/a`
entry, plus a second container `b` with no entry. -/
def matchedPod : Pod :=
  { annots := [(appKey, trueLit), (cuKeyStart ++ "a".data, "single-core".data)]
    containers := [{ name := "a".data }, { name := "b".data }] }

/-- A pod without the activation entry. -/
def plainPod : Pod :=
  { annots := [("owner".data, "me".data)], containers := [{ name := "a".data }] }

/-- A pod-resource admission request carrying the given raw bytes. -/
def podReq (raw : List Nat) : AdmissionRequest :=
  { uid := "uid-1", userInfo := "alice", operation := "CREATE"
    resource := podResource, objectRaw := raw }

/-- An admission request for a non-pod resource. -/
def otherReq : AdmissionRequest :=
  { uid := "uid-2", userInfo := "bob", operation := "UPDATE"
    resource := { group := "apps", version := "v1", resource := "deployments" }
    objectRaw := [123] }

/-- A pod-resource request differing from `podReq raw` in every field the
decision function ignores. -/
def podReqOther (raw : List Nat) : AdmissionRequest :=
  { uid := "uid-9", userInfo := "eve", operation := "DELETE"
    resource := podResource, objectRaw := raw }

/-! ### Claim theorems -/

/-- C1: for an activated pod whose `aic.4paradigm.com/computeunit/<name>`
entry has no container named `<name>`, `applySecurityDefaults` returns no
patches and the `unexpected computeunit` error: dangling computeunit
references are never silently ignored. -/
theorem unmatched_computeunit_rejected (d : List Nat → Except GoStr Pod)
    (req : AdmissionRequest) (pod : Pod) (name v : GoStr)
    (hres : req.resource = podResource)
    (hdec : d req.objectRaw = Except.ok pod)
    (hact : goIndex pod.annots appKey = trueLit)
    (hann : (cuKeyStart ++ name, v) ∈ pod.annots)
    (hno : ∀ c ∈ pod.containers, c.name ≠ name) :
    applySecurityDefaults d req = Except.error cuErrMsg := by
  obtain ⟨w, hw⟩ := buildCuMap_key_of_mem pod.annots [] hann
  have hsurv : (name, w) ∈ (cuLoop pod.containers ⟨[], buildCuMap pod.annots [], pod⟩).cuMap :=
    cuLoop_mem _ _ hw hno
  have hlen : (cuLoop pod.containers ⟨[], buildCuMap pod.annots [], pod⟩).cuMap.length ≠ 0 := by
    intro h0
    rw [List.length_eq_zero] at h0
    rw [h0] at hsurv
    exact List.not_mem_nil _ hsurv
  simp [applySecurityDefaults, hres, hdec, evalPodPolicy, hact, hlen]

/-- C1 witness: the general theorem applied to the `ghost` pod fixture. -/
theorem unmatched_computeunit_rejected_witness :
    applySecurityDefaults (constDecode ghostPod) (podReq [0]) = Except.error cuErrMsg :=
  unmatched_computeunit_rejected (constDecode ghostPod) (podReq [0]) ghostPod
    ("ghost".data) ("x".data) rfl rfl (by decide) (by decide) (by decide)

/-- C2: a request for a resource other than the registered pod resource is
approved with no patch, and the result does not depend on the decoder at all
(the raw object is never decoded). -/
theorem kind_mismatch_passthrough (d d' : List Nat → Except GoStr Pod)
    (req : AdmissionRequest) (h : req.resource ≠ podResource) :
    applySecurityDefaults d req = Except.ok [] ∧
      applySecurityDefaults d req = applySecurityDefaults d' req := by
  constructor <;> simp [applySecurityDefaults, h]

/-- C2 witness: a deployments-resource request, under a succeeding and a
failing decoder. -/
theorem kind_mismatch_passthrough_witness :
    applySecurityDefaults (constDecode matchedPod) otherReq = Except.ok [] ∧
      applySecurityDefaults (constDecode matchedPod) otherReq =
        applySecurityDefaults (errDecode "boom".data) otherReq :=
  kind_mismatch_passthrough (constDecode matchedPod) (errDecode "boom".data) otherReq
    (by decide)

/-- C3: a pod whose annotation map lacks the `aic.4paradigm.com/app` key or
binds it to anything other than `true` is approved with no patch. -/
theorem no_activation_passthrough (d : List Nat → Except GoStr Pod)
    (req : AdmissionRequest) (pod : Pod)
    (hres : req.resource = podResource)
    (hdec : d req.objectRaw = Except.ok pod)
    (hact : goIndex pod.annots appKey ≠ trueLit) :
    applySecurityDefaults d req = Except.ok [] := by
  simp [applySecurityDefaults, hres, hdec, evalPodPolicy, hact]

/-- C3 witness: the general theorem applied to the unactivated pod fixture. -/
theorem no_activation_passthrough_witness :
    applySecurityDefaults (constDecode plainPod) (podReq [0]) = Except.ok [] :=
  no_activation_passthrough (constDecode plainPod) (podReq [0]) plainPod rfl rfl (by decide)

/-- C4: if every `aic.4paradigm.com/computeunit/<name>` entry of an activated
pod has a container named `<name>`, the decision succeeds (no error) with no
patch; containers without a computeunit entry never cause failure. -/
theorem matched_computeunits_accepted (d : List Nat → Except GoStr Pod)
    (req : AdmissionRequest) (pod : Pod)
    (hres : req.resource = podResource)
    (hdec : d req.objectRaw = Except.ok pod)
    (hact : goIndex pod.annots appKey = trueLit)
    (hmatch : ∀ kv ∈ pod.annots, cuKeyStart.isPrefixOf kv.1 = true →
        ∃ c ∈ pod.containers, c.name = trimPfx cuKeyStart kv.1) :
    applySecurityDefaults d req = Except.ok [] := by
  have hempty : (cuLoop pod.containers ⟨[], buildCuMap pod.annots [], pod⟩).cuMap = [] := by
    apply cuLoop_empty
    intro k w hkw
    rcases mem_buildCuMap pod.annots [] hkw with ⟨w', hw'⟩ | ⟨key, v, hkv, hp, ht⟩
    · exact absurd hw' (List.not_mem_nil _)
    · obtain ⟨c, hc, hcn⟩ := hmatch (key, v) hkv hp
      exact ⟨c, hc, by rw [hcn, ht]⟩
  simp [applySecurityDefaults, hres, hdec, evalPodPolicy, hact, hempty]

/-- C4 witness: the general theorem applied to the matched pod fixture,
whose container `b` has no computeunit entry. -/
theorem matched_computeunits_accepted_witness :
    applySecurityDefaults (constDecode matchedPod) (podReq [0]) = Except.ok [] :=
  matched_computeunits_accepted (constDecode matchedPod) (podReq [0]) matchedPod
    rfl rfl (by decide) (by decide)

/-- C5: whenever `applySecurityDefaults` succeeds, the returned patch list is
empty: the patch-emission step is commented out in the source, so no patch
operation is ever produced. -/
theorem success_patch_empty (d : List Nat → Except GoStr Pod)
    (req : AdmissionRequest) (l : List PatchOperation)
    (h : applySecurityDefaults d req = Except.ok l) : l = [] := by
  unfold applySecurityDefaults at h
  by_cases hres : req.resource ≠ podResource
  · rw [if_pos hres] at h
    exact (Except.ok.inj h).symm
  · rw [if_neg hres] at h
    cases hdec : d req.objectRaw with
    | error e => rw [hdec] at h; exact absurd h (by simp)
    | ok pod =>
      rw [hdec] at h
      dsimp only at h
      rcases evalPodPolicy_fst_cases pod with hcase | hcase
      · rw [hcase] at h
        exact (Except.ok.inj h).symm
      · rw [hcase] at h
        exact absurd h (by simp)

/-- C5 witness: the theorem applied at a concrete successful input. -/
theorem success_patch_empty_witness :
    applySecurityDefaults (constDecode matchedPod) (podReq [0]) = Except.ok [] ∧
      ([] : List PatchOperation) = [] :=
  ⟨rfl, success_patch_empty (constDecode matchedPod) (podReq [0]) [] rfl⟩

/-- C6: the decision function is deterministic: two invocations on identical
inputs yield identical results (it reads no state besides its arguments). -/
theorem decision_deterministic (d : List Nat → Except GoStr Pod)
    (req₁ req₂ : AdmissionRequest) (h : req₁ = req₂) :
    applySecurityDefaults d req₁ = applySecurityDefaults d req₂ := by
  rw [h]

/-- C6 witness: the theorem applied to two identical concrete requests. -/
theorem decision_deterministic_witness :
    applySecurityDefaults (constDecode matchedPod) (podReq [0]) =
      applySecurityDefaults (constDecode matchedPod) (podReq [0]) :=
  decision_deterministic (constDecode matchedPod) (podReq [0]) (podReq [0]) rfl

/-- C7: the policy evaluation never mutates the reviewed pod: the working
computeunit map is a fresh structure and all deletions happen on it, so the
pod threaded through the evaluation comes out unchanged (in particular its
annotation map is unchanged). -/
theorem evalPodPolicy_pod_unchanged (pod : Pod) : (evalPodPolicy pod).2 = pod := by
  unfold evalPodPolicy
  by_cases hact : goIndex pod.annots appKey ≠ trueLit
  · simp [hact]
  · have hpod := cuLoop_pod pod.containers ⟨[], buildCuMap pod.annots [], pod⟩
    by_cases hlen : (cuLoop pod.containers ⟨[], buildCuMap pod.annots [], pod⟩).cuMap.length ≠ 0
    · simp [hact, hlen, hpod]
    · simp [hact, hlen, hpod]

/-- C8: the decision depends only on the request's resource descriptor and
raw object bytes: requests agreeing on those two fields but differing in uid,
user info, operation, and any other field produce identical results. -/
theorem result_depends_only_on_resource_and_raw (d : List Nat → Except GoStr Pod)
    (req₁ req₂ : AdmissionRequest)
    (hres : req₁.resource = req₂.resource)
    (hraw : req₁.objectRaw = req₂.objectRaw) :
    applySecurityDefaults d req₁ = applySecurityDefaults d req₂ := by
  simp only [applySecurityDefaults, hres, hraw]

/-- C8 witness: two concrete requests sharing resource and raw bytes but
differing in uid, user info and operation. -/
theorem result_depends_only_on_resource_and_raw_witness :
    applySecurityDefaults (constDecode matchedPod) (podReq [0]) =
      applySecurityDefaults (constDecode matchedPod) (podReqOther [0]) :=
  result_depends_only_on_resource_and_raw (constDecode matchedPod)
    (podReq [0]) (podReqOther [0]) rfl rfl

/-- C9: the server of `main` binds exactly the path `/mutate` to
`applySecurityDefaults`, listens on `:8443`, serves only over TLS with
certificate `/run/secrets/tls/tls.crt` and key `/run/secrets/tls/tls.key`,
and exits the process with the error as diagnostic when the TLS listener
cannot be started (no insecure fallback). -/
theorem bootstrap_config :
    mainServer.addr = ":8443" ∧
      mainServer.routes = [("/mutate", applySecurityDefaults)] ∧
      mainServer.mode = ServeMode.tls "/run/secrets/tls/tls.crt" "/run/secrets/tls/tls.key" ∧
      ∀ e : GoStr, mainOnListenResult (Except.error e) = MainOutcome.fatalExit (some e) :=
  ⟨rfl, rfl, rfl, fun _ => rfl⟩

/-- C10: a pod-resource request whose raw bytes fail to decode yields no
patches and an error carrying the `could not deserialize pod object: ` prefix
followed by the decoder's message. -/
theorem decode_failure_surfaces_error (d : List Nat → Except GoStr Pod)
    (req : AdmissionRequest) (e : GoStr)
    (hres : req.resource = podResource)
    (hdec : d req.objectRaw = Except.error e) :
    applySecurityDefaults d req = Except.error (deserializeMsg ++ e) := by
  simp [applySecurityDefaults, hres, hdec]

/-- C10 witness: the theorem applied to a concretely failing decoder. -/
theorem decode_failure_surfaces_error_witness :
    applySecurityDefaults (errDecode "boom".data) (podReq [0]) =
      Except.error (deserializeMsg ++ "boom".data) :=
  decode_failure_surfaces_error (errDecode "boom".data) (podReq [0]) ("boom".data) rfl rfl

end Webhook
